import Mathlib

/-
Shallow embedding of `src/UniversitySystem.js`: a CRUD store over a single
JSON document with per-kind schemas, validation, timestamped backups and
substring search.  JS values are modelled by `JValue` (strings, numbers as
integers, booleans, null); records are association lists from field name to
value, preserving JS object insertion order; the document holds the three
id-keyed collections.  File I/O is modelled by a state carrying the primary
document and the list of backup snapshots, plus an optional I/O fault that
makes every underlying read/write raise a fixed message (`none` = healthy
I/O).  Each public operation returns the post-call state (backups written
before a failure persist) together with an `Except` result mirroring the
JS throw/return behaviour.
-/

set_option autoImplicit false

namespace UniversitySystem

instance {ε α : Type} [DecidableEq ε] [DecidableEq α] : DecidableEq (Except ε α) :=
  fun a b =>
    match a, b with
    | Except.ok x, Except.ok y =>
        if h : x = y then isTrue (by rw [h])
        else isFalse fun hc => h (Except.ok.inj hc)
    | Except.ok _, Except.error _ => isFalse fun hc => Except.noConfusion hc
    | Except.error _, Except.ok _ => isFalse fun hc => Except.noConfusion hc
    | Except.error x, Except.error y =>
        if h : x = y then isTrue (by rw [h])
        else isFalse fun hc => h (Except.error.inj hc)

/-- A flat JS/JSON value as used by this program. Numbers are modelled as
integers (every numeric literal in the repository is an integer). -/
inductive JValue where
  | str (s : String)
  | num (n : Int)
  | bool (b : Bool)
  | null
deriving DecidableEq, Repr

/-- JS `typeof` on the modelled values (`typeof null` is `"object"`). -/
def jsTypeof : JValue → String
  | .str _ => "string"
  | .num _ => "number"
  | .bool _ => "boolean"
  | .null => "object"

/-- A record: a JS object, i.e. an ordered association list
from field name to value. -/
abbrev JRecord := List (String × JValue)

/-- Field read `data[field]`: first binding of the field, `none` = absent
(JS `undefined`). -/
def getF : JRecord → String → Option JValue
  | [], _ => none
  | (k, v) :: r, f => if k = f then some v else getF r f

/-- JS `field in data`: the field is present. -/
def hasF : JRecord → String → Bool
  | [], _ => false
  | (k, _) :: r, f => k = f || hasF r f

/-- Lowercasing of a JS string, per character (models `toLowerCase`). -/
def lowerS (s : String) : List Char := s.data.map Char.toLower

/-- `isPrefL sub l`: `sub` is a prefix of `l`. -/
def isPrefL : List Char → List Char → Bool
  | [], _ => true
  | _ :: _, [] => false
  | a :: as, b :: bs => a == b && isPrefL as bs

/-- `containsB sub l`: `sub` occurs contiguously in `l`
(models JS `String.prototype.includes`). -/
def containsB (sub : List Char) : List Char → Bool
  | [] => isPrefL sub []
  | c :: t => isPrefL sub (c :: t) || containsB sub t

/-- The three entity kinds accepted by the public operations. -/
inductive Kind where
  | student
  | professor
  | department
deriving DecidableEq, Repr, Fintype

/-- The `${type}` interpolation: name of a kind. -/
def kindName : Kind → String
  | .student => "student"
  | .professor => "professor"
  | .department => "department"

/-- A validation schema: required field names and expected `typeof` per
field, both in source order. -/
structure Schema where
  required : List String
  types : List (String × String)

/-- The `#schemas` table, verbatim from the source (note the student
schema requires `major` but type-checks `course`). -/
def schemas : Kind → Schema
  | .student =>
      { required := ["id", "name", "email", "enrollmentYear", "major"]
        types := [("id", "string"), ("name", "string"), ("email", "string"),
                  ("enrollmentYear", "number"), ("course", "string")] }
  | .professor =>
      { required := ["id", "name", "email", "department", "specialization"]
        types := [("id", "string"), ("name", "string"), ("email", "string"),
                  ("department", "string"), ("specialization", "string")] }
  | .department =>
      { required := ["id", "name", "building", "budget"]
        types := [("id", "string"), ("name", "string"), ("building", "string"),
                  ("budget", "number")] }

/-- The required-field pass of `#validateData`: throws on the first
required field absent from the record. -/
def checkRequired (data : JRecord) : List String → Except String Bool
  | [] => .ok true
  | f :: fs =>
      if hasF data f then checkRequired data fs
      else .error ("Missing required field: " ++ f)

/-- The type pass of `#validateData`: for each schema-typed field present
in the record, throws on the first `typeof` mismatch. -/
def checkTypes (data : JRecord) : List (String × String) → Except String Bool
  | [] => .ok true
  | (f, t) :: fs =>
      match getF data f with
      | some v =>
          if jsTypeof v = t then checkTypes data fs
          else .error ("Invalid type for " ++ f ++ ": expected " ++ t)
      | none => checkTypes data fs

/-- `#validateData(data, type)`: required pass, then type pass,
returning `true` on success. -/
def validateData (data : JRecord) (ty : Kind) : Except String Bool :=
  match checkRequired data (schemas ty).required with
  | .error m => .error m
  | .ok _ => checkTypes data (schemas ty).types

/-- An id-keyed collection (`departments` / `professors` / `students`):
an ordered association list from id to record, as a JS object. -/
abbrev Coll := List (String × JRecord)

/-- Collection read `coll[id]`. -/
def lookupK : Coll → String → Option JRecord
  | [], _ => none
  | (k, v) :: m, i => if k = i then some v else lookupK m i

/-- Collection write `coll[id] = rec`: replaces in place if the key
exists, otherwise appends (JS object insertion order). -/
def setK : Coll → String → JRecord → Coll
  | [], i, v => [(i, v)]
  | (k, w) :: m, i, v => if k = i then (i, v) :: m else (k, w) :: setK m i v

/-- `delete coll[id]`: removes the binding. -/
def removeK : Coll → String → Coll
  | [], _ => []
  | (k, v) :: m, i => if k = i then removeK m i else (k, v) :: removeK m i

/-- The persisted document: the three collections. -/
structure Document where
  departments : Coll
  professors : Coll
  students : Coll
deriving DecidableEq, Repr

/-- `universityData[`type`s]`: the collection of a kind. -/
def Document.coll : Document → Kind → Coll
  | d, .student => d.students
  | d, .professor => d.professors
  | d, .department => d.departments

/-- Writing back one kind's collection into the document. -/
def Document.setColl : Document → Kind → Coll → Document
  | d, .student, c => { d with students := c }
  | d, .professor, c => { d with professors := c }
  | d, .department, c => { d with departments := c }

/-- The empty document written by `initialize()` when the file is absent. -/
def emptyDoc : Document := { departments := [], professors := [], students := [] }

/-- Store state: the primary document (file contents) and the backup files
written so far (each a full snapshot), in creation order. -/
structure SysState where
  doc : Document
  backups : List Document
deriving DecidableEq, Repr

/-- `initialize()` observed through this model: a fresh store over a given
document, with no backups counted yet (`none` = file absent, so the empty
document is written). -/
def initState : Option Document → SysState
  | some d => { doc := d, backups := [] }
  | none => { doc := emptyDoc, backups := [] }

/-- `#readFile()`: returns the document, or wraps the underlying I/O fault
as `Failed to read data: ...`. -/
def readFile (io : Option String) (st : SysState) : Except String Document :=
  match io with
  | some m => .error ("Failed to read data: " ++ m)
  | none => .ok st.doc

/-- `#writeFile(data)`: replaces the document, or wraps the underlying I/O
fault as `Failed to write data: ...`. -/
def writeFile (io : Option String) (d : Document) (st : SysState) :
    Except String SysState :=
  match io with
  | some m => .error ("Failed to write data: " ++ m)
  | none => .ok { st with doc := d }

/-- `#createBackup()`: reads the current document and writes it as one new
timestamped backup file. -/
def createBackup (io : Option String) (st : SysState) : Except String SysState :=
  match readFile io st with
  | .error m => .error m
  | .ok d => .ok { st with backups := st.backups ++ [d] }

/-- The `Failed to <verb> <kind>: <message>` wrapper used by the catch
blocks of `add` / `update` / `delete`. -/
def wrapV (verb : String) (ty : Kind) (m : String) : String :=
  "Failed to " ++ verb ++ " " ++ kindName ty ++ ": " ++ m

/-- `${data.id}` after validation: the id field's string value (validation
forces the id to be a present string, so the default is never reached). -/
def idKey (data : JRecord) : String :=
  match getF data "id" with
  | some (.str s) => s
  | _ => ""

/-- `add(type, data)`: validate, back up, read, duplicate-id check,
insert, write.  Note the backup precedes the duplicate-id check. -/
def add (io : Option String) (ty : Kind) (data : JRecord) (st : SysState) :
    SysState × Except String JRecord :=
  match validateData data ty with
  | .error m => (st, .error (wrapV "add" ty m))
  | .ok _ =>
      match createBackup io st with
      | .error m => (st, .error (wrapV "add" ty m))
      | .ok st1 =>
          match readFile io st1 with
          | .error m => (st1, .error (wrapV "add" ty m))
          | .ok ud =>
              match lookupK (ud.coll ty) (idKey data) with
              | some _ =>
                  (st1, .error (wrapV "add" ty
                    (kindName ty ++ " with ID " ++ idKey data ++ " already exists")))
              | none =>
                  match writeFile io
                      (ud.setColl ty (setK (ud.coll ty) (idKey data) data)) st1 with
                  | .error m => (st1, .error (wrapV "add" ty m))
                  | .ok st2 => (st2, .ok data)

/-- `{ ...existing, ...updates }`: shallow merge, existing fields
overridden in place, new fields of `updates` appended in order. -/
def mergeR (a b : JRecord) : JRecord :=
  (a.map fun p =>
    match getF b p.1 with
    | some v => (p.1, v)
    | none => p)
  ++ b.filter fun p => !(hasF a p.1)

/-- `update(type, id, updates)`: read, not-found check, shallow merge,
validate the merged record, back up, write under the original key. -/
def update (io : Option String) (ty : Kind) (id : String) (updates : JRecord)
    (st : SysState) : SysState × Except String JRecord :=
  match readFile io st with
  | .error m => (st, .error (wrapV "update" ty m))
  | .ok ud =>
      match lookupK (ud.coll ty) id with
      | none =>
          (st, .error (wrapV "update" ty (kindName ty ++ " with ID " ++ id ++ " not found")))
      | some existing =>
          match validateData (mergeR existing updates) ty with
          | .error m => (st, .error (wrapV "update" ty m))
          | .ok _ =>
              match createBackup io st with
              | .error m => (st, .error (wrapV "update" ty m))
              | .ok st1 =>
                  match writeFile io
                      (ud.setColl ty (setK (ud.coll ty) id (mergeR existing updates))) st1 with
                  | .error m => (st1, .error (wrapV "update" ty m))
                  | .ok st2 => (st2, .ok (mergeR existing updates))

/-- `prof.department === id` over a professors collection
(the dependency scan of `delete`). -/
def refsDept (profs : Coll) (id : String) : Bool :=
  profs.any fun p =>
    match getF p.2 "department" with
    | some (.str s) => s == id
    | _ => false

/-- `delete(type, id)`: read, not-found check, department dependency
check, back up, remove, write. -/
def delete (io : Option String) (ty : Kind) (id : String) (st : SysState) :
    SysState × Except String Bool :=
  match readFile io st with
  | .error m => (st, .error (wrapV "delete" ty m))
  | .ok ud =>
      match lookupK (ud.coll ty) id with
      | none =>
          (st, .error (wrapV "delete" ty (kindName ty ++ " with ID " ++ id ++ " not found")))
      | some _ =>
          if ty = Kind.department ∧ refsDept ud.professors id then
            (st, .error (wrapV "delete" ty "Cannot delete department with assigned professors"))
          else
            match createBackup io st with
            | .error m => (st, .error (wrapV "delete" ty m))
            | .ok st1 =>
                match writeFile io (ud.setColl ty (removeK (ud.coll ty) id)) st1 with
                | .error m => (st1, .error (wrapV "delete" ty m))
                | .ok st2 => (st2, .ok true)

/-- One criterion of `search`: `value` textual means case-insensitive
substring containment via `item[key]?.toLowerCase().includes(...)` (absent
or null field is short-circuited to no-match by `?.`; a present non-string
field makes the call throw a TypeError); otherwise strict equality. -/
def matchVal (item : JRecord) (key : String) (v : JValue) : Except String Bool :=
  match v with
  | .str s =>
      match getF item key with
      | none => .ok false
      | some .null => .ok false
      | some (.str t) => .ok (containsB (lowerS s) (lowerS t))
      | some _ => .error "item[key]?.toLowerCase is not a function"
  | _ => .ok (decide (getF item key = some v))

/-- `Object.entries(criteria).every(...)`: criteria checked in order,
short-circuiting on the first no-match or thrown TypeError. -/
def matchesCrit (item : JRecord) : List (String × JValue) → Except String Bool
  | [] => .ok true
  | (k, v) :: rest =>
      match matchVal item k v with
      | .error m => .error m
      | .ok true => matchesCrit item rest
      | .ok false => .ok false

/-- `items.filter(...)` with a throwing predicate: keeps the matches, and
aborts on the first record whose evaluation throws. -/
def filterCrit (crit : List (String × JValue)) : List JRecord → Except String (List JRecord)
  | [] => .ok []
  | r :: rs =>
      match matchesCrit r crit with
      | .error m => .error m
      | .ok b =>
          match filterCrit crit rs with
          | .error m => .error m
          | .ok l => .ok (if b then r :: l else l)

/-- `search(type, criteria)`: read, then filter the kind's records. -/
def search (io : Option String) (ty : Kind) (crit : List (String × JValue))
    (st : SysState) : SysState × Except String (List JRecord) :=
  match readFile io st with
  | .error m => (st, .error ("Search failed: " ++ m))
  | .ok ud =>
      match filterCrit crit ((ud.coll ty).map Prod.snd) with
      | .error m => (st, .error ("Search failed: " ++ m))
      | .ok l => (st, .ok l)

/-- A schema type entry is violated by a record: field present with a
mismatched runtime type (the configuration `#validateData`'s type pass
throws on). -/
def typeBad (data : JRecord) (p : String × String) : Bool :=
  match getF data p.1 with
  | some v => !(decide (jsTypeof v = p.2))
  | none => false

/-- One criterion of the spec's matching relation, written from the spec's
words: a textual value matches iff the record's field is a string that
case-insensitively contains it as a substring (an absent — or non-string —
field never matches); any other value must be exactly equal to the field. -/
def specFieldMatch (r : JRecord) (k : String) (v : JValue) : Bool :=
  match v with
  | .str s =>
      match getF r k with
      | some (.str t) => containsB (lowerS s) (lowerS t)
      | _ => false
  | _ => decide (getF r k = some v)

/-- The spec's matching relation: every criterion matches. -/
def specMatches (r : JRecord) (crit : List (String × JValue)) : Bool :=
  crit.all fun p => specFieldMatch r p.1 p.2

/-- `search(K, criteria)` includes a record: the call returns a list and
the record is in it. -/
def searchIncludes (st : SysState) (K : Kind) (crit : List (String × JValue))
    (R : JRecord) : Prop :=
  ∃ L, (search none K crit st).2 = .ok L ∧ R ∈ L

/-- One public call, for reasoning about call sequences. -/
inductive Call where
  | add (ty : Kind) (data : JRecord)
  | update (ty : Kind) (id : String) (updates : JRecord)
  | delete (ty : Kind) (id : String)
  | search (ty : Kind) (crit : List (String × JValue))

/-- Run one public call under healthy I/O: resulting state and whether the
call succeeded (returned instead of throwing). -/
def runCall : Call → SysState → SysState × Bool
  | .add ty data, st => ((add none ty data st).1, (add none ty data st).2.isOk)
  | .update ty id u, st => ((update none ty id u st).1, (update none ty id u st).2.isOk)
  | .delete ty id, st => ((delete none ty id st).1, (delete none ty id st).2.isOk)
  | .search ty crit, st => ((search none ty crit st).1, (search none ty crit st).2.isOk)

/-- Mutating calls: add, update, delete. -/
def isMut : Call → Bool
  | .search _ _ => false
  | _ => true

/-- An add call whose record passes schema validation. -/
def validAdd : Call → Bool
  | .add ty data => (validateData data ty).isOk
  | _ => false

/-- Run a call sequence under healthy I/O, counting (successful mutating
calls, add calls that failed after passing validation). -/
def runTrace : SysState → List Call → SysState × Nat × Nat
  | st, [] => (st, 0, 0)
  | st, c :: cs =>
      match runCall c st with
      | (st1, ok) =>
          match runTrace st1 cs with
          | (stf, s, f) =>
              (stf, (if ok && isMut c then 1 else 0) + s,
                    (if validAdd c && !ok then 1 else 0) + f)

/-- The key/id invariant: every stored record's `id` field is the string
it is keyed by. -/
def IdInv (d : Document) : Prop :=
  ∀ K : Kind, ∀ p ∈ d.coll K, getF p.2 "id" = some (.str p.1)

instance decidableIdInv (d : Document) : Decidable (IdInv d) :=
  inferInstanceAs
    (Decidable (∀ K : Kind, ∀ p ∈ d.coll K, getF p.2 "id" = some (.str p.1)))

/-! ### Concrete records and states used by witnesses and counterexamples -/

/-- A valid department record with id `d1`. -/
def recD1 : JRecord :=
  [("id", .str "d1"), ("name", .str "Math"), ("building", .str "B1"), ("budget", .num 100)]

/-- A valid department record with id `d2`. -/
def recD2 : JRecord :=
  [("id", .str "d2"), ("name", .str "Physics"), ("building", .str "B2"), ("budget", .num 200)]

/-- A valid professor record referencing department `d1`. -/
def recP1 : JRecord :=
  [("id", .str "p1"), ("name", .str "Ada"), ("email", .str "a@u.edu"),
   ("department", .str "d1"), ("specialization", .str "AI")]

/-- A valid student record. -/
def recS1 : JRecord :=
  [("id", .str "s1"), ("name", .str "Sam"), ("email", .str "s@u.edu"),
   ("enrollmentYear", .num 2024), ("major", .str "CS")]

/-- A store holding only department `d1`, no backups yet. -/
def stD1 : SysState :=
  { doc := { emptyDoc with departments := [("d1", recD1)] }, backups := [] }

/-- A store holding department `d1` and professor `p1` (which references
`d1`), no backups yet. -/
def stD1P1 : SysState :=
  { doc := { emptyDoc with departments := [("d1", recD1)], professors := [("p1", recP1)] }
    backups := [] }

/-- A department whose id `xy` contains `y` as a substring. -/
def recXY : JRecord :=
  [("id", .str "xy"), ("name", .str "X"), ("building", .str "B"), ("budget", .num 1)]

/-- A valid department record with the fresh id `y`. -/
def recY : JRecord :=
  [("id", .str "y"), ("name", .str "Y"), ("building", .str "B"), ("budget", .num 2)]

/-- A store holding only department `xy`. -/
def stXY : SysState :=
  { doc := { emptyDoc with departments := [("xy", recXY)] }, backups := [] }

/-- A valid department carrying an extra untyped field `nickname` holding
a string. -/
def recNickA : JRecord :=
  [("id", .str "a"), ("name", .str "Alpha"), ("building", .str "B"), ("budget", .num 1),
   ("nickname", .str "axe")]

/-- A valid department carrying an extra untyped field `nickname` holding
a number (accepted by validation: `nickname` is not in the type map). -/
def recNickB : JRecord :=
  [("id", .str "b"), ("name", .str "Beta"), ("building", .str "B"), ("budget", .num 2),
   ("nickname", .num 7)]

/-- A store holding the two `nickname`-carrying departments. -/
def stNick : SysState :=
  { doc := { emptyDoc with departments := [("a", recNickA), ("b", recNickB)] }, backups := [] }

/-- A textual criterion on the untyped field `nickname`. -/
def critNick : List (String × JValue) := [("nickname", .str "ax")]

/-- The one-call trace that re-adds the already present department `d1`. -/
def traceDup : List Call := [Call.add .department recD1]

/-- An update that changes only the budget. -/
def updBudget : JRecord := [("budget", JValue.num 500)]

/-- An update that rewrites the id field to `d2`. -/
def updId : JRecord := [("id", JValue.str "d2")]

/-- A department record whose budget holds a string (a type violation). -/
def recDBad : JRecord :=
  [("id", JValue.str "d9"), ("name", JValue.str "N"), ("building", JValue.str "B"),
   ("budget", JValue.str "much")]

/-- A valid student record that also carries the optional `course` field. -/
def recSC : JRecord :=
  [("id", JValue.str "s2"), ("name", JValue.str "Ann"), ("email", JValue.str "an@u.edu"),
   ("enrollmentYear", JValue.num 2023), ("major", JValue.str "CS"),
   ("course", JValue.str "Algo")]

/-! ### Basic lemmas about records, collections and substring containment -/

theorem hasF_eq_isSome (r : JRecord) (f : String) : hasF r f = (getF r f).isSome := by
  induction r with
  | nil => rfl
  | cons p r ih =>
      obtain ⟨k, v⟩ := p
      by_cases h : k = f <;> simp [hasF, getF, h, ih]

theorem getF_eq_none_of_hasF_false (r : JRecord) (f : String) (h : hasF r f = false) :
    getF r f = none := by
  rw [hasF_eq_isSome] at h
  cases hg : getF r f with
  | none => rfl
  | some v => rw [hg] at h; simp at h

theorem getF_append (xs ys : JRecord) (f : String) :
    getF (xs ++ ys) f =
      match getF xs f with
      | some v => some v
      | none => getF ys f := by
  induction xs with
  | nil => simp [getF]
  | cons p xs ih =>
      obtain ⟨k, v⟩ := p
      by_cases h : k = f <;> simp [getF, h, ih]

theorem isPrefL_self (l : List Char) : isPrefL l l = true := by
  induction l with
  | nil => rfl
  | cons c t ih => simp [isPrefL, ih]

theorem containsB_self (l : List Char) : containsB l l = true := by
  cases l with
  | nil => rfl
  | cons c t => simp [containsB, isPrefL_self]

theorem lookupK_setK_self (m : Coll) (k : String) (v : JRecord) :
    lookupK (setK m k v) k = some v := by
  induction m with
  | nil => simp [setK, lookupK]
  | cons p m ih =>
      obtain ⟨k', w⟩ := p
      by_cases h : k' = k <;> simp [setK, lookupK, h, ih]

theorem setK_of_lookupK_none (m : Coll) (k : String) (v : JRecord)
    (h : lookupK m k = none) : setK m k v = m ++ [(k, v)] := by
  induction m with
  | nil => rfl
  | cons p m ih =>
      obtain ⟨k', w⟩ := p
      by_cases hk : k' = k
      · simp [lookupK, hk] at h
      · simp [lookupK, hk] at h
        simp [setK, hk, ih h]

theorem lookupK_removeK_self (m : Coll) (k : String) :
    lookupK (removeK m k) k = none := by
  induction m with
  | nil => rfl
  | cons p m ih =>
      obtain ⟨k', w⟩ := p
      by_cases h : k' = k <;> simp [removeK, lookupK, h, ih]

theorem mem_setK (m : Coll) (k : String) (v : JRecord) (p : String × JRecord)
    (hp : p ∈ setK m k v) : p = (k, v) ∨ p ∈ m := by
  induction m with
  | nil => simp [setK] at hp; simp [hp]
  | cons q m ih =>
      obtain ⟨k', w⟩ := q
      by_cases h : k' = k
      · simp [setK, h] at hp
        rcases hp with hp | hp
        · exact Or.inl (by simp [hp])
        · exact Or.inr (by simp [hp])
      · simp [setK, h] at hp
        rcases hp with hp | hp
        · exact Or.inr (by simp [hp])
        · rcases ih hp with h1 | h1
          · exact Or.inl h1
          · exact Or.inr (by simp [h1])

theorem mem_removeK (m : Coll) (k : String) (p : String × JRecord)
    (hp : p ∈ removeK m k) : p ∈ m := by
  induction m with
  | nil => simp [removeK] at hp
  | cons q m ih =>
      obtain ⟨k', w⟩ := q
      by_cases h : k' = k
      · simp [removeK, h] at hp
        exact List.mem_cons_of_mem _ (ih hp)
      · simp [removeK, h] at hp
        rcases hp with hp | hp
        · simp [hp]
        · exact List.mem_cons_of_mem _ (ih hp)

theorem lookupK_mem (m : Coll) (k : String) (v : JRecord)
    (h : lookupK m k = some v) : (k, v) ∈ m := by
  induction m with
  | nil => simp [lookupK] at h
  | cons q m ih =>
      obtain ⟨k', w⟩ := q
      by_cases hk : k' = k
      · simp [lookupK, hk] at h
        simp [hk, h]
      · simp [lookupK, hk] at h
        exact List.mem_cons_of_mem _ (ih h)

/-! ### The shallow merge, characterized field by field -/

theorem getF_map_ovr (a b : JRecord) (f : String) :
    getF (a.map fun p =>
      match getF b p.1 with
      | some v => (p.1, v)
      | none => p) f =
      match getF a f with
      | some w => some (match getF b f with | some v => v | none => w)
      | none => none := by
  induction a with
  | nil => simp [getF]
  | cons p a ih =>
      obtain ⟨k, w⟩ := p
      by_cases hk : k = f
      · subst hk
        cases hb : getF b k <;> simp [getF, hb, ih]
      · cases hb : getF b k <;> simp [getF, hk, hb, ih]

theorem getF_filter_not_has (a b : JRecord) (f : String) (h : hasF a f = false) :
    getF (b.filter fun p => !(hasF a p.1)) f = getF b f := by
  induction b with
  | nil => rfl
  | cons p b ih =>
      obtain ⟨k, v⟩ := p
      by_cases hk : k = f
      · subst hk
        simp [List.filter, h, getF]
      · cases hka : hasF a k <;> simp [List.filter, hka, getF, hk, ih]

theorem getF_mergeR (a b : JRecord) (f : String) :
    getF (mergeR a b) f = if hasF b f then getF b f else getF a f := by
  unfold mergeR
  rw [getF_append, getF_map_ovr]
  cases hga : getF a f with
  | some w =>
      cases hgb : getF b f with
      | some v =>
          have hb : hasF b f = true := by rw [hasF_eq_isSome, hgb]; rfl
          simp [hb, hgb]
      | none =>
          have hb : hasF b f = false := by rw [hasF_eq_isSome, hgb]; rfl
          simp [hb, hgb]
  | none =>
      have haf : hasF a f = false := by rw [hasF_eq_isSome, hga]; rfl
      rw [getF_filter_not_has a b f haf]
      cases hgb : getF b f with
      | some v =>
          have hb : hasF b f = true := by rw [hasF_eq_isSome, hgb]; rfl
          simp [hb, hgb]
      | none =>
          have hb : hasF b f = false := by rw [hasF_eq_isSome, hgb]; rfl
          simp [hb, hgb, hga]

/-! ### Validation lemmas -/

theorem checkRequired_error_of_find (data : JRecord) (l : List String) (f : String)
    (h : l.find? (fun fl => !(hasF data fl)) = some f) :
    checkRequired data l = .error ("Missing required field: " ++ f) := by
  induction l with
  | nil => simp [List.find?] at h
  | cons f' fs ih =>
      by_cases hf : hasF data f'
      · rw [List.find?_cons_of_neg _ (by simp [hf])] at h
        simp [checkRequired, hf, ih h]
      · rw [List.find?_cons_of_pos _ (by simp [hf])] at h
        cases h
        simp [checkRequired, hf]

theorem checkRequired_ok_of_find_none (data : JRecord) (l : List String)
    (h : l.find? (fun fl => !(hasF data fl)) = none) :
    checkRequired data l = .ok true := by
  induction l with
  | nil => rfl
  | cons f' fs ih =>
      by_cases hf : hasF data f'
      · rw [List.find?_cons_of_neg _ (by simp [hf])] at h
        simp [checkRequired, hf, ih h]
      · rw [List.find?_cons_of_pos _ (by simp [hf])] at h
        simp at h

theorem checkRequired_not_ok_false (data : JRecord) (l : List String) :
    checkRequired data l ≠ .ok false := by
  induction l with
  | nil => simp [checkRequired]
  | cons f fs ih =>
      by_cases hf : hasF data f <;> simp [checkRequired, hf, ih]

theorem checkRequired_ok_hasF (data : JRecord) (l : List String)
    (h : checkRequired data l = .ok true) : ∀ f ∈ l, hasF data f = true := by
  induction l with
  | nil => intro f hf; simp at hf
  | cons f' fs ih =>
      intro f hf
      by_cases hf' : hasF data f'
      · rcases List.mem_cons.mp hf with h1 | h1
        · rw [h1]; exact hf'
        · exact ih (by simpa [checkRequired, hf'] using h) f h1
      · simp [checkRequired, hf'] at h

theorem checkTypes_error_of_find (data : JRecord) (ts : List (String × String))
    (f t : String) (h : ts.find? (typeBad data) = some (f, t)) :
    checkTypes data ts = .error ("Invalid type for " ++ f ++ ": expected " ++ t) := by
  induction ts with
  | nil => simp [List.find?] at h
  | cons p ts ih =>
      obtain ⟨f', t'⟩ := p
      cases hg : getF data f' with
      | none =>
          rw [List.find?_cons_of_neg _ (by simp [typeBad, hg])] at h
          simp [checkTypes, hg, ih h]
      | some v =>
          by_cases ht : jsTypeof v = t'
          · rw [List.find?_cons_of_neg _ (by simp [typeBad, hg, ht])] at h
            simp [checkTypes, hg, ht, ih h]
          · rw [List.find?_cons_of_pos _ (by simp [typeBad, hg, ht])] at h
            simp only [Option.some.injEq, Prod.mk.injEq] at h
            obtain ⟨h1, h2⟩ := h
            subst h1
            subst h2
            simp [checkTypes, hg, ht]

theorem checkTypes_ok_of_find_none (data : JRecord) (ts : List (String × String))
    (h : ts.find? (typeBad data) = none) :
    checkTypes data ts = .ok true := by
  induction ts with
  | nil => rfl
  | cons p ts ih =>
      obtain ⟨f', t'⟩ := p
      cases hg : getF data f' with
      | none =>
          rw [List.find?_cons_of_neg _ (by simp [typeBad, hg])] at h
          simp [checkTypes, hg, ih h]
      | some v =>
          by_cases ht : jsTypeof v = t'
          · rw [List.find?_cons_of_neg _ (by simp [typeBad, hg, ht])] at h
            simp [checkTypes, hg, ht, ih h]
          · rw [List.find?_cons_of_pos _ (by simp [typeBad, hg, ht])] at h
            simp at h

theorem checkTypes_ok_type (data : JRecord) (ts : List (String × String))
    (h : checkTypes data ts = .ok true) :
    ∀ p ∈ ts, ∀ v, getF data p.1 = some v → jsTypeof v = p.2 := by
  induction ts with
  | nil => intro p hp; simp at hp
  | cons q ts ih =>
      obtain ⟨f', t'⟩ := q
      intro p hp v hv
      cases hg : getF data f' with
      | none =>
          rcases List.mem_cons.mp hp with h1 | h1
          · rw [h1] at hv; rw [hg] at hv; cases hv
          · exact ih (by simpa [checkTypes, hg] using h) p h1 v hv
      | some w =>
          by_cases ht : jsTypeof w = t'
          · rcases List.mem_cons.mp hp with h1 | h1
            · subst h1
              simp only at hv
              rw [hg] at hv
              cases hv
              exact ht
            · exact ih (by simpa [checkTypes, hg, ht] using h) p h1 v hv
          · simp [checkTypes, hg, ht] at h

theorem validateData_error_required (data : JRecord) (ty : Kind) (f : String)
    (h : (schemas ty).required.find? (fun fl => !(hasF data fl)) = some f) :
    validateData data ty = .error ("Missing required field: " ++ f) := by
  unfold validateData
  rw [checkRequired_error_of_find data _ f h]

theorem validateData_of_required_ok (data : JRecord) (ty : Kind)
    (h : (schemas ty).required.find? (fun fl => !(hasF data fl)) = none) :
    validateData data ty = checkTypes data (schemas ty).types := by
  unfold validateData
  rw [checkRequired_ok_of_find_none data _ h]

theorem validateData_ok_required (data : JRecord) (ty : Kind)
    (h : validateData data ty = .ok true) :
    checkRequired data (schemas ty).required = .ok true := by
  unfold validateData at h
  cases hr : checkRequired data (schemas ty).required with
  | error m => rw [hr] at h; cases h
  | ok b =>
      cases b with
      | true => rfl
      | false => exact absurd hr (checkRequired_not_ok_false data _)

theorem validateData_ok_types (data : JRecord) (ty : Kind)
    (h : validateData data ty = .ok true) :
    checkTypes data (schemas ty).types = .ok true := by
  unfold validateData at h
  cases hr : checkRequired data (schemas ty).required with
  | error m => rw [hr] at h; cases h
  | ok b => rw [hr] at h; exact h

theorem validateData_ok_id (data : JRecord) (ty : Kind)
    (h : validateData data ty = .ok true) :
    getF data "id" = some (.str (idKey data)) := by
  have hreq := validateData_ok_required data ty h
  have hid : hasF data "id" = true :=
    checkRequired_ok_hasF data _ hreq "id" (by cases ty <;> decide)
  have htypes := validateData_ok_types data ty h
  rw [hasF_eq_isSome] at hid
  cases hg : getF data "id" with
  | none => rw [hg] at hid; simp at hid
  | some v =>
      have hstr : jsTypeof v = "string" :=
        checkTypes_ok_type data _ htypes ("id", "string") (by cases ty <;> decide) v hg
      cases v with
      | str s => simp [idKey, hg]
      | num n => simp [jsTypeof] at hstr
      | bool b => simp [jsTypeof] at hstr
      | null => simp [jsTypeof] at hstr

/-! ### Document collection lemmas -/

theorem coll_setColl_same (d : Document) (K : Kind) (l : Coll) :
    (d.setColl K l).coll K = l := by
  cases K <;> rfl

theorem coll_setColl_other (d : Document) (K K' : Kind) (l : Coll) (h : K' ≠ K) :
    (d.setColl K l).coll K' = d.coll K' := by
  cases K <;> cases K' <;> first | rfl | exact (h rfl).elim

/-! ### Search lemmas -/

theorem matchVal_ok_iff_spec (r : JRecord) (k : String) (v : JValue) (b : Bool)
    (h : matchVal r k v = .ok b) : b = specFieldMatch r k v := by
  cases v with
  | str s =>
      cases hg : getF r k with
      | none =>
          simp [matchVal, hg] at h
          simp [specFieldMatch, hg, ← h]
      | some w =>
          cases w with
          | str t =>
              simp [matchVal, hg] at h
              simp [specFieldMatch, hg, ← h]
          | num n => simp [matchVal, hg] at h
          | bool c => simp [matchVal, hg] at h
          | null =>
              simp [matchVal, hg] at h
              simp [specFieldMatch, hg, ← h]
  | num n =>
      simp [matchVal] at h
      simp [specFieldMatch, ← h]
  | bool c =>
      simp [matchVal] at h
      simp [specFieldMatch, ← h]
  | null =>
      simp [matchVal] at h
      simp [specFieldMatch, ← h]

theorem matchesCrit_ok_iff_spec (r : JRecord) (crit : List (String × JValue)) (b : Bool)
    (h : matchesCrit r crit = .ok b) : b = specMatches r crit := by
  induction crit generalizing b with
  | nil =>
      simp [matchesCrit] at h
      simp [specMatches, ← h]
  | cons p rest ih =>
      obtain ⟨k, v⟩ := p
      cases hm : matchVal r k v with
      | error m => simp [matchesCrit, hm] at h
      | ok bv =>
          have hspec := matchVal_ok_iff_spec r k v bv hm
          cases bv with
          | false =>
              simp [matchesCrit, hm] at h
              simp [specMatches, ← hspec, ← h]
          | true =>
              simp only [matchesCrit, hm] at h
              simp [specMatches, ← hspec, ih b h]

theorem filterCrit_ok_elems (crit : List (String × JValue)) (items : List JRecord)
    (L : List JRecord) (h : filterCrit crit items = .ok L) :
    ∀ r ∈ items, ∃ b, matchesCrit r crit = .ok b := by
  induction items generalizing L with
  | nil => intro r hr; simp at hr
  | cons x xs ih =>
      intro r hr
      cases hm : matchesCrit x crit with
      | error m => simp [filterCrit, hm] at h
      | ok b =>
          cases hf : filterCrit crit xs with
          | error m => simp [filterCrit, hm, hf] at h
          | ok l' =>
              rcases List.mem_cons.mp hr with h1 | h1
              · exact ⟨b, h1 ▸ hm⟩
              · exact ih l' hf r h1

theorem filterCrit_ok_mem_iff (crit : List (String × JValue)) (items : List JRecord)
    (L : List JRecord) (h : filterCrit crit items = .ok L) (r : JRecord) :
    r ∈ L ↔ r ∈ items ∧ matchesCrit r crit = .ok true := by
  induction items generalizing L with
  | nil =>
      simp [filterCrit] at h
      subst h
      simp
  | cons x xs ih =>
      cases hm : matchesCrit x crit with
      | error m => simp [filterCrit, hm] at h
      | ok b =>
          cases hf : filterCrit crit xs with
          | error m => simp [filterCrit, hm, hf] at h
          | ok l' =>
              have hiff := ih l' hf
              cases b with
              | false =>
                  simp [filterCrit, hm, hf] at h
                  subst h
                  rw [hiff]
                  constructor
                  · rintro ⟨h1, h2⟩
                    exact ⟨List.mem_cons_of_mem _ h1, h2⟩
                  · rintro ⟨h1, h2⟩
                    rcases List.mem_cons.mp h1 with h3 | h3
                    · subst h3
                      rw [hm] at h2
                      cases h2
                    · exact ⟨h3, h2⟩
              | true =>
                  simp [filterCrit, hm, hf] at h
                  subst h
                  constructor
                  · intro h1
                    rcases List.mem_cons.mp h1 with h3 | h3
                    · subst h3
                      exact ⟨List.mem_cons_self _ _, hm⟩
                    · obtain ⟨h4, h5⟩ := hiff.mp h3
                      exact ⟨List.mem_cons_of_mem _ h4, h5⟩
                  · rintro ⟨h1, h2⟩
                    rcases List.mem_cons.mp h1 with h3 | h3
                    · subst h3
                      exact List.mem_cons_self _ _
                    · exact List.mem_cons_of_mem _ (hiff.mpr ⟨h3, h2⟩)

theorem filterCrit_skip_false (crit : List (String × JValue)) (xs ys : List JRecord)
    (hxs : ∀ r ∈ xs, matchesCrit r crit = .ok false) :
    filterCrit crit (xs ++ ys) = filterCrit crit ys := by
  induction xs with
  | nil => rfl
  | cons x xs ih =>
      have hx := hxs x (List.mem_cons_self _ _)
      have ih' := ih fun r hr => hxs r (List.mem_cons_of_mem _ hr)
      cases hf : filterCrit crit (xs ++ ys) with
      | error m =>
          simp [filterCrit, hx, hf]
          rw [← ih', hf]
      | ok l =>
          simp [filterCrit, hx, hf]
          rw [← ih', hf]

theorem search_state (io : Option String) (ty : Kind) (crit : List (String × JValue))
    (st : SysState) : (search io ty crit st).1 = st := by
  cases io with
  | some m => rfl
  | none =>
      unfold search
      simp only [readFile]
      cases hfc : filterCrit crit ((st.doc.coll ty).map Prod.snd) <;> simp [hfc]

/-! ### Backup accounting -/

theorem runCall_backups (c : Call) (st : SysState) :
    ((runCall c st).1).backups.length
      = st.backups.length
        + ((if (runCall c st).2 && isMut c then 1 else 0)
          + (if validAdd c && !(runCall c st).2 then 1 else 0)) := by
  cases c with
  | add ty data =>
      cases hv : validateData data ty with
      | error m => simp [runCall, isMut, validAdd, add, hv, Except.isOk, Except.toBool]
      | ok b =>
          cases hl : lookupK (st.doc.coll ty) (idKey data) with
          | some r =>
              simp [runCall, isMut, validAdd, add, hv, hl, createBackup, readFile,
                writeFile, Except.isOk, Except.toBool, List.length_append]
          | none =>
              simp [runCall, isMut, validAdd, add, hv, hl, createBackup, readFile,
                writeFile, Except.isOk, Except.toBool, List.length_append]
  | update ty id u =>
      cases hl : lookupK (st.doc.coll ty) id with
      | none => simp [runCall, isMut, validAdd, update, readFile, hl, Except.isOk, Except.toBool]
      | some ex =>
          cases hv : validateData (mergeR ex u) ty with
          | error m =>
              simp [runCall, isMut, validAdd, update, readFile, hl, hv, Except.isOk, Except.toBool]
          | ok b =>
              simp [runCall, isMut, validAdd, update, readFile, hl, hv, createBackup,
                writeFile, Except.isOk, Except.toBool, List.length_append]
  | delete ty id =>
      cases hl : lookupK (st.doc.coll ty) id with
      | none => simp [runCall, isMut, validAdd, delete, readFile, hl, Except.isOk, Except.toBool]
      | some r =>
          by_cases hdep : ty = Kind.department ∧ refsDept st.doc.professors id
          · obtain ⟨hty, href⟩ := hdep
            subst hty
            simp [runCall, isMut, validAdd, delete, readFile, hl, href, Except.isOk, Except.toBool]
          · simp [runCall, isMut, validAdd, delete, readFile, hl, hdep, createBackup,
              writeFile, Except.isOk, Except.toBool, List.length_append]
  | search ty crit =>
      simp only [runCall, isMut, validAdd]
      rw [search_state]
      simp

/-! ### C1: backup accounting over call sequences -/

/-- C1 counterexample: starting from an initialized store that already
holds department `d1`, the single (failed) call `add('department', recD1)`
passes validation, writes a backup, and only then hits the duplicate-id
check — so the store ends with 1 backup file but 0 successful mutating
calls, refuting "the count of backup files equals the count of successful
mutating calls since initialization". -/
theorem C1_counterexample_backup_count :
    ¬ (((runTrace stD1 traceDup).1).backups.length = (runTrace stD1 traceDup).2.1) := by
  decide

/-- C1 (amended): after any sequence of public calls under healthy I/O,
the number of backup files grows by exactly the number of successful
mutating calls plus the number of `add` calls that failed after passing
validation (duplicate-id conflicts); every successful mutating call
contributes exactly one backup, and failed `update`/`delete` calls and
validation-failed `add` calls contribute none. -/
theorem C1_backup_accounting (cs : List Call) (st : SysState) :
    ((runTrace st cs).1).backups.length
      = st.backups.length + (runTrace st cs).2.1 + (runTrace st cs).2.2 := by
  induction cs generalizing st with
  | nil => simp [runTrace]
  | cons c cs ih =>
      have hb := runCall_backups c st
      cases hrc : runCall c st with
      | mk st1 ok =>
          rw [hrc] at hb
          cases hrt : runTrace st1 cs with
          | mk stf p =>
              obtain ⟨s, f⟩ := p
              have ih' := ih st1
              rw [hrt] at ih'
              simp only [runTrace, hrc, hrt]
              simp only at hb ih'
              by_cases h1 : (ok && isMut c) = true <;>
                by_cases h2 : (validAdd c && !ok) = true <;>
                  simp only [h1, h2, if_true, if_false] at hb ⊢ <;>
                    omega

/-! ### C2: add followed by search on the id -/

theorem add_success_state (ty : Kind) (data : JRecord) (st : SysState) (b : Bool)
    (hv : validateData data ty = .ok b)
    (hfresh : lookupK (st.doc.coll ty) (idKey data) = none) :
    add none ty data st =
      ({ doc := st.doc.setColl ty (setK (st.doc.coll ty) (idKey data) data),
         backups := st.backups ++ [st.doc] }, .ok data) := by
  simp [add, hv, createBackup, readFile, writeFile, hfresh]

/-- C2 counterexample: department `xy` is already stored; the record
`recY` (id `y`) is valid and fresh, its `add` succeeds, yet
`search('department', {id: "y"})` does not return exactly `[recY]`,
because the id criterion is matched by case-insensitive substring
containment and `"xy"` contains `"y"`. -/
theorem C2_counterexample_substring_id :
    (add none .department recY stXY).2 = .ok recY ∧
    ¬ ((search none .department [("id", JValue.str (idKey recY))]
          (add none .department recY stXY).1).2 = .ok [recY]) := by
  decide

/-- C2 (amended): for a valid record `R` of kind `K` with fresh id,
`add(K,R)` returns `R` and a subsequent `search(K, {id: R.id})` returns a
list containing `R`; it returns exactly `[R]` provided no other stored
record matches the id criterion (the criterion is case-insensitive
substring containment on the `id` field, so another id merely containing
`R.id` would also be returned). -/
theorem C2_add_then_search_id (K : Kind) (R : JRecord) (st : SysState)
    (hv : validateData R K = .ok true)
    (hfresh : lookupK (st.doc.coll K) (idKey R) = none)
    (hothers : ∀ p ∈ st.doc.coll K,
      matchesCrit p.2 [("id", JValue.str (idKey R))] = .ok false) :
    (add none K R st).2 = .ok R ∧
    (search none K [("id", JValue.str (idKey R))] (add none K R st).1).2 = .ok [R] := by
  have hid := validateData_ok_id R K hv
  have hmatch : matchesCrit R [("id", JValue.str (idKey R))] = .ok true := by
    simp [matchesCrit, matchVal, hid, containsB_self]
  rw [add_success_state K R st true hv hfresh]
  constructor
  · rfl
  · simp only [search, readFile, coll_setColl_same]
    rw [setK_of_lookupK_none _ _ _ hfresh, List.map_append]
    rw [filterCrit_skip_false _ _ _ (by
      intro r hr
      simp only [List.mem_map] at hr
      obtain ⟨p, hp, rfl⟩ := hr
      exact hothers p hp)]
    simp [filterCrit, hmatch]

/-- C2 witness: adding the valid department `recD1` to the empty store
and searching its id returns exactly `[recD1]`. -/
theorem C2_witness :
    (add none .department recD1 (initState none)).2 = .ok recD1 ∧
    (search none .department [("id", JValue.str (idKey recD1))]
      (add none .department recD1 (initState none)).1).2 = .ok [recD1] :=
  C2_add_then_search_id .department recD1 (initState none)
    (by decide) (by decide) (by decide)

/-! ### C3: the search matching relation -/

/-- C3 counterexample: both departments are accepted by validation (the
extra `nickname` field is not in the type map), `recNickA` satisfies the
claim's matching relation for `{nickname: "ax"}` — yet it is not included
in the search result, because scanning `recNickB` (whose `nickname` is a
number) makes the whole call throw instead of returning a list. -/
theorem C3_counterexample_throwing_field :
    validateData recNickA .department = .ok true ∧
    validateData recNickB .department = .ok true ∧
    specMatches recNickA critNick = true ∧
    ¬ searchIncludes stNick .department critNick recNickA := by
  refine ⟨by decide, by decide, by decide, ?_⟩
  intro h
  obtain ⟨L, hL, _⟩ := h
  have he : (search none .department critNick stNick).2
      = .error "Search failed: item[key]?.toLowerCase is not a function" := by decide
  rw [he] at hL
  exact Except.noConfusion hL

/-- C3 (amended): provided the search call returns a list (it throws when
some scanned record holds a present non-string, non-null field tested by a
textual criterion), a stored record is in the result iff it satisfies the
spec's matching relation: textual criteria by case-insensitive substring
on string fields, everything else by strict equality; an absent field
never matches and is not an error. -/
theorem C3_search_membership (st : SysState) (K : Kind)
    (crit : List (String × JValue)) (R : JRecord) (L : List JRecord)
    (hR : R ∈ (st.doc.coll K).map Prod.snd)
    (hok : (search none K crit st).2 = .ok L) :
    (R ∈ L ↔ specMatches R crit = true) ∧
    (∀ k s, getF R k = none → matchVal R k (JValue.str s) = .ok false) := by
  constructor
  · have hf : filterCrit crit ((st.doc.coll K).map Prod.snd) = .ok L := by
      revert hok
      unfold search
      simp only [readFile]
      cases hfc : filterCrit crit ((st.doc.coll K).map Prod.snd) with
      | error m => intro hok; simp at hok
      | ok l => intro hok; simp at hok; rw [hok]
    rw [filterCrit_ok_mem_iff crit _ L hf R]
    constructor
    · rintro ⟨_, hm⟩
      exact (matchesCrit_ok_iff_spec R crit true hm).symm
    · intro hs
      obtain ⟨b, hb⟩ := filterCrit_ok_elems crit _ L hf R hR
      have hbs : b = specMatches R crit := matchesCrit_ok_iff_spec R crit b hb
      rw [hs] at hbs
      exact ⟨hR, hbs ▸ hb⟩
  · intro k s hk
    simp [matchVal, hk]

/-- C3 witness: in the store holding only department `d1`, the textual
criterion `{name: "mat"}` matches `recD1` (name `Math`, case-insensitive
substring), and membership in the returned list coincides with the spec's
matching relation. -/
theorem C3_witness :
    recD1 ∈ [recD1] ↔ specMatches recD1 [("name", JValue.str "mat")] = true :=
  (C3_search_membership stD1 .department [("name", JValue.str "mat")] recD1 [recD1]
    (by decide) (by decide)).1

/-! ### C4: validation order, short-circuiting and pass-through -/

theorem checkRequired_cons_value (r : JRecord) (l : List String) (f : String)
    (v v' : JValue) :
    checkRequired ((f, v) :: r) l = checkRequired ((f, v') :: r) l := by
  induction l with
  | nil => rfl
  | cons g gs ih => simp [checkRequired, hasF, ih]

theorem checkTypes_cons_value (r : JRecord) (ts : List (String × String)) (f : String)
    (v v' : JValue) (hf : f ∉ ts.map Prod.fst) :
    checkTypes ((f, v) :: r) ts = checkTypes ((f, v') :: r) ts := by
  induction ts with
  | nil => rfl
  | cons p ts ih =>
      obtain ⟨g, t⟩ := p
      have hfg : f ≠ g := by
        intro hc
        exact hf (by simp [hc])
      have hf' : f ∉ ts.map Prod.fst := fun hc => hf (by simp [hc])
      have hget : ∀ w : JValue, getF ((f, w) :: r) g = getF r g := by
        intro w
        simp [getF, hfg]
      simp only [checkTypes, hget, ih hf']

theorem validateData_cons_value (K : Kind) (r : JRecord) (f : String) (v v' : JValue)
    (hf : f ∉ (schemas K).types.map Prod.fst) :
    validateData ((f, v) :: r) K = validateData ((f, v') :: r) K := by
  unfold validateData
  rw [checkRequired_cons_value r _ f v v']
  cases checkRequired ((f, v') :: r) (schemas K).required with
  | error m => rfl
  | ok b => exact checkTypes_cons_value r _ f v v' hf

/-- C4: validation short-circuits on the first violation; the whole
required-field pass (reporting the first missing required field, in schema
order) runs before the type pass (reporting the first present mistyped
field, in type-map order); and the value of any field absent from the
schema's type map is never inspected. -/
theorem C4_validation_order (K : Kind) (r : JRecord) :
    (∀ f, (schemas K).required.find? (fun fl => !(hasF r fl)) = some f →
        validateData r K = .error ("Missing required field: " ++ f)) ∧
    ((schemas K).required.find? (fun fl => !(hasF r fl)) = none →
      ((∀ f t, (schemas K).types.find? (typeBad r) = some (f, t) →
          validateData r K = .error ("Invalid type for " ++ f ++ ": expected " ++ t)) ∧
        ((schemas K).types.find? (typeBad r) = none → validateData r K = .ok true))) ∧
    (∀ f v v', f ∉ (schemas K).types.map Prod.fst →
        validateData ((f, v) :: r) K = validateData ((f, v') :: r) K) := by
  refine ⟨?_, ?_, ?_⟩
  · intro f h
    exact validateData_error_required r K f h
  · intro hreq
    constructor
    · intro f t h
      rw [validateData_of_required_ok r K hreq]
      exact checkTypes_error_of_find r _ f t h
    · intro h
      rw [validateData_of_required_ok r K hreq]
      exact checkTypes_ok_of_find_none r _ h
  · intro f v v' hf
    exact validateData_cons_value K r f v v' hf

/-- C4 witness: a student record holding only an id reports the first
missing required field (`name`, not the later ones); a department record
with all required fields but a textual budget reports the type error; and
an extra field outside the type map is never inspected. -/
theorem C4_witness :
    validateData [("id", JValue.str "s")] .student
      = .error ("Missing required field: " ++ "name") ∧
    validateData recDBad .department
      = .error ("Invalid type for " ++ "budget" ++ ": expected " ++ "number") ∧
    validateData (("extra", JValue.num 1) :: recD1) .department
      = validateData (("extra", JValue.bool true) :: recD1) .department :=
  ⟨(C4_validation_order .student [("id", JValue.str "s")]).1 "name" (by decide),
   ((C4_validation_order .department recDBad).2.1 (by decide)).1 "budget" "number" (by decide),
   (C4_validation_order .department recD1).2.2 "extra" (JValue.num 1) (JValue.bool true)
     (by decide)⟩

/-! ### C5: duplicate-id add -/

/-- C5: adding a valid record whose id already exists under the kind fails
with the conflict error (`<kind> with ID <id> already exists`, wrapped) and
leaves the primary document unchanged. -/
theorem C5_duplicate_add (K : Kind) (R : JRecord) (st : SysState) (ex : JRecord)
    (hv : validateData R K = .ok true)
    (hdup : lookupK (st.doc.coll K) (idKey R) = some ex) :
    (add none K R st).2
      = .error (wrapV "add" K
          (kindName K ++ " with ID " ++ idKey R ++ " already exists")) ∧
    ((add none K R st).1).doc = st.doc := by
  simp [add, hv, createBackup, readFile, hdup]

/-- C5 witness: re-adding department `d1` to the store that already holds
it fails with the conflict message and leaves the document untouched. -/
theorem C5_witness :
    (add none .department recD1 stD1).2
      = .error (wrapV "add" .department
          (kindName .department ++ " with ID " ++ idKey recD1 ++ " already exists")) ∧
    ((add none .department recD1 stD1).1).doc = stD1.doc :=
  C5_duplicate_add .department recD1 stD1 recD1 (by decide) (by decide)

/-! ### C6: deleting departments and the professor dependency check -/

/-- C6: deleting an existing department referenced by at least one
professor fails with the dependency error and leaves the whole store
unchanged (the department is still readable); deleting an existing
department with no referencing professor succeeds and removes it. -/
theorem C6_delete_department (st : SysState) (id : String) :
    ((∃ d, lookupK st.doc.departments id = some d) →
      refsDept st.doc.professors id = true →
        delete none .department id st
          = (st, .error (wrapV "delete" .department
              "Cannot delete department with assigned professors"))) ∧
    ((∃ d, lookupK st.doc.departments id = some d) →
      refsDept st.doc.professors id = false →
        (delete none .department id st).2 = .ok true ∧
        lookupK (((delete none .department id st).1).doc.departments) id = none) := by
  constructor
  · rintro ⟨d, hd⟩ href
    simp [delete, readFile, Document.coll, hd, href]
  · rintro ⟨d, hd⟩ href
    constructor
    · simp [delete, readFile, Document.coll, hd, href, createBackup, writeFile]
    · simp [delete, readFile, Document.coll, hd, href, createBackup, writeFile,
        Document.setColl, lookupK_removeK_self]

/-- C6 witness: with professor `p1` referencing `d1` the delete fails and
the store is unchanged; without professors the delete succeeds and `d1` is
gone. -/
theorem C6_witness :
    delete none .department "d1" stD1P1
      = (stD1P1, .error (wrapV "delete" .department
          "Cannot delete department with assigned professors")) ∧
    ((delete none .department "d1" stD1).2 = .ok true ∧
      lookupK (((delete none .department "d1" stD1).1).doc.departments) "d1" = none) :=
  ⟨(C6_delete_department stD1P1 "d1").1 ⟨recD1, by decide⟩ (by decide),
   (C6_delete_department stD1 "d1").2 ⟨recD1, by decide⟩ (by decide)⟩

/-! ### C7: update as a shallow merge -/

/-- C7: updating an existing record (when the merged record passes
validation) returns the shallow merge, stores it under the original key,
and field-wise the merge takes exactly the fields present in `updates`
(schema-filtered or not) and leaves every other field of the existing
record unchanged. -/
theorem C7_update_merge (K : Kind) (id : String) (u : JRecord) (st : SysState)
    (ex : JRecord)
    (hex : lookupK (st.doc.coll K) id = some ex)
    (hv : validateData (mergeR ex u) K = .ok true) :
    (update none K id u st).2 = .ok (mergeR ex u) ∧
    (∀ f, getF (mergeR ex u) f = if hasF u f then getF u f else getF ex f) ∧
    lookupK (((update none K id u st).1).doc.coll K) id = some (mergeR ex u) := by
  refine ⟨?_, fun f => getF_mergeR ex u f, ?_⟩
  · simp [update, readFile, hex, hv, createBackup, writeFile]
  · simp [update, readFile, hex, hv, createBackup, writeFile,
      coll_setColl_same, lookupK_setK_self]

/-- C7 witness: updating only the budget of department `d1` returns the
merged record and stores it under `d1`. -/
theorem C7_witness :
    (update none .department "d1" updBudget stD1).2 = .ok (mergeR recD1 updBudget) ∧
    lookupK (((update none .department "d1" updBudget stD1).1).doc.coll .department) "d1"
      = some (mergeR recD1 updBudget) :=
  ⟨(C7_update_merge .department "d1" updBudget stD1 recD1 (by decide) (by decide)).1,
   (C7_update_merge .department "d1" updBudget stD1 recD1 (by decide) (by decide)).2.2⟩

/-! ### C8: the student schema's major/course mismatch -/

/-- C8: for students, `major` is required but never type-checked (its
value is never inspected), while `course` is type-checked as a string when
present but never required; the two names are distinct fields. -/
theorem C8_student_major_course :
    ("major" ∈ (schemas .student).required ∧
      "major" ∉ (schemas .student).types.map Prod.fst ∧
      "course" ∉ (schemas .student).required ∧
      ("course", "string") ∈ (schemas .student).types ∧
      "major" ≠ "course") ∧
    (∀ r v v', validateData (("major", v) :: r) .student
        = validateData (("major", v') :: r) .student) ∧
    (∀ r v, validateData r .student = .ok true → getF r "course" = some v →
        jsTypeof v = "string") := by
  refine ⟨by decide, ?_, ?_⟩
  · intro r v v'
    exact validateData_cons_value .student r "major" v v' (by decide)
  · intro r v hok hc
    exact checkTypes_ok_type r _ (validateData_ok_types r .student hok)
      ("course", "string") (by decide) v hc

/-- C8 witness: a concrete valid student carrying `course` has a string
there, and swapping arbitrary values into `major` never changes the
validation verdict. -/
theorem C8_witness :
    jsTypeof (JValue.str "Algo") = "string" ∧
    validateData (("major", JValue.num 1) :: recS1) .student
      = validateData (("major", JValue.bool true) :: recS1) .student :=
  ⟨C8_student_major_course.2.2 recSC (JValue.str "Algo") (by decide) (by decide),
   C8_student_major_course.2.1 recS1 (JValue.num 1) (JValue.bool true)⟩

/-! ### C9: uniform error wrapping -/

theorem containsB_append_self (pre sub : List Char) :
    containsB sub (pre ++ sub) = true := by
  induction pre with
  | nil => simpa using containsB_self sub
  | cons c t ih => simp [containsB, ih]

theorem wrapV_contains (verb : String) (ty : Kind) (m : String) :
    containsB m.data (wrapV verb ty m).data = true := by
  unfold wrapV
  rw [String.data_append]
  exact containsB_append_self _ _

theorem searchWrap_contains (m : String) :
    containsB m.data ("Search failed: " ++ m).data = true := by
  rw [String.data_append]
  exact containsB_append_self _ _

theorem add_error_shape (io : Option String) (K : Kind) (r : JRecord) (st : SysState)
    (e : String) (h : (add io K r st).2 = .error e) :
    ∃ m, e = wrapV "add" K m := by
  cases hv : validateData r K with
  | error m =>
      simp [add, hv] at h
      exact ⟨m, h.symm⟩
  | ok b =>
      cases io with
      | some msg =>
          simp [add, hv, createBackup, readFile] at h
          exact ⟨"Failed to read data: " ++ msg, h.symm⟩
      | none =>
          cases hl : lookupK (st.doc.coll K) (idKey r) with
          | some ex =>
              simp [add, hv, hl, createBackup, readFile] at h
              exact ⟨kindName K ++ " with ID " ++ idKey r ++ " already exists", h.symm⟩
          | none =>
              simp [add, hv, hl, createBackup, readFile, writeFile] at h

theorem update_error_shape (io : Option String) (K : Kind) (id : String) (u : JRecord)
    (st : SysState) (e : String) (h : (update io K id u st).2 = .error e) :
    ∃ m, e = wrapV "update" K m := by
  cases io with
  | some msg =>
      simp [update, readFile] at h
      exact ⟨"Failed to read data: " ++ msg, h.symm⟩
  | none =>
      cases hl : lookupK (st.doc.coll K) id with
      | none =>
          simp [update, readFile, hl] at h
          exact ⟨kindName K ++ " with ID " ++ id ++ " not found", h.symm⟩
      | some ex =>
          cases hv : validateData (mergeR ex u) K with
          | error m =>
              simp [update, readFile, hl, hv] at h
              exact ⟨m, h.symm⟩
          | ok b =>
              simp [update, readFile, hl, hv, createBackup, writeFile] at h

theorem delete_error_shape (io : Option String) (K : Kind) (id : String)
    (st : SysState) (e : String) (h : (delete io K id st).2 = .error e) :
    ∃ m, e = wrapV "delete" K m := by
  cases io with
  | some msg =>
      simp [delete, readFile] at h
      exact ⟨"Failed to read data: " ++ msg, h.symm⟩
  | none =>
      cases hl : lookupK (st.doc.coll K) id with
      | none =>
          simp [delete, readFile, hl] at h
          exact ⟨kindName K ++ " with ID " ++ id ++ " not found", h.symm⟩
      | some ex =>
          by_cases hdep : K = Kind.department ∧ refsDept st.doc.professors id
          · obtain ⟨hty, href⟩ := hdep
            subst hty
            simp [delete, readFile, hl, href] at h
            exact ⟨"Cannot delete department with assigned professors", h.symm⟩
          · simp [delete, readFile, hl, hdep, createBackup, writeFile] at h

theorem search_error_shape (io : Option String) (K : Kind)
    (crit : List (String × JValue)) (st : SysState) (e : String)
    (h : (search io K crit st).2 = .error e) :
    ∃ m, e = "Search failed: " ++ m := by
  cases io with
  | some msg =>
      simp [search, readFile] at h
      exact ⟨"Failed to read data: " ++ msg, h.symm⟩
  | none =>
      cases hfc : filterCrit crit ((st.doc.coll K).map Prod.snd) with
      | error m =>
          simp [search, readFile, hfc] at h
          exact ⟨m, h.symm⟩
      | ok l =>
          simp [search, readFile, hfc] at h

/-- C9: whatever the underlying cause (validation, conflict, not-found,
dependency, or an I/O fault), a failing public operation raises exactly
one wrapped error `Failed to <verb> <kind>: <original message>`
(`Search failed: <original message>` for search), and the wrapped text
contains the original message as a substring. -/
theorem C9_wrapped_errors (io : Option String) (st : SysState) (K : Kind) :
    (∀ r e, (add io K r st).2 = .error e →
        ∃ m, e = wrapV "add" K m ∧ containsB m.data e.data = true) ∧
    (∀ id u e, (update io K id u st).2 = .error e →
        ∃ m, e = wrapV "update" K m ∧ containsB m.data e.data = true) ∧
    (∀ id e, (delete io K id st).2 = .error e →
        ∃ m, e = wrapV "delete" K m ∧ containsB m.data e.data = true) ∧
    (∀ crit e, (search io K crit st).2 = .error e →
        ∃ m, e = "Search failed: " ++ m ∧ containsB m.data e.data = true) := by
  refine ⟨?_, ?_, ?_, ?_⟩
  · intro r e h
    obtain ⟨m, hm⟩ := add_error_shape io K r st e h
    exact ⟨m, hm, by rw [hm]; exact wrapV_contains _ _ _⟩
  · intro id u e h
    obtain ⟨m, hm⟩ := update_error_shape io K id u st e h
    exact ⟨m, hm, by rw [hm]; exact wrapV_contains _ _ _⟩
  · intro id e h
    obtain ⟨m, hm⟩ := delete_error_shape io K id st e h
    exact ⟨m, hm, by rw [hm]; exact wrapV_contains _ _ _⟩
  · intro crit e h
    obtain ⟨m, hm⟩ := search_error_shape io K crit st e h
    exact ⟨m, hm, by rw [hm]; exact searchWrap_contains _⟩

/-- C9 witness: the concrete validation failure of adding an empty student
record yields the wrapped message with the original text inside it. -/
theorem C9_witness :
    ∃ m, "Failed to add student: Missing required field: id"
        = wrapV "add" Kind.student m ∧
      containsB m.data "Failed to add student: Missing required field: id".data = true :=
  (C9_wrapped_errors none (initState none) .student).1 []
    "Failed to add student: Missing required field: id" (by decide)

/-! ### C10: the key/id invariant -/

theorem checkTypes_not_ok_false (data : JRecord) (ts : List (String × String)) :
    checkTypes data ts ≠ .ok false := by
  induction ts with
  | nil => simp [checkTypes]
  | cons p ts ih =>
      obtain ⟨f, t⟩ := p
      cases hg : getF data f with
      | none => simp [checkTypes, hg, ih]
      | some v => by_cases ht : jsTypeof v = t <;> simp [checkTypes, hg, ht, ih]

theorem validateData_ok_true (data : JRecord) (ty : Kind) (b : Bool)
    (h : validateData data ty = .ok b) : validateData data ty = .ok true := by
  cases b with
  | true => exact h
  | false =>
      exfalso
      unfold validateData at h
      cases hr : checkRequired data (schemas ty).required with
      | error m => rw [hr] at h; cases h
      | ok c => rw [hr] at h; exact checkTypes_not_ok_false data _ h

/-- C10 counterexample: the store satisfies the key/id invariant, the call
`update('department', 'd1', {id: 'd2'})` succeeds (the merged record is
schema-valid), yet afterwards the invariant fails: the merged record is
stored under the key `d1` while its `id` field reads `d2`. -/
theorem C10_counterexample_update_id :
    IdInv stD1.doc ∧
    (update none .department "d1" updId stD1).2 = .ok (mergeR recD1 updId) ∧
    ¬ IdInv ((update none .department "d1" updId stD1).1).doc := by
  refine ⟨by decide, by decide, by decide⟩

/-- C10 (amended): the key/id invariant (every stored record's `id` field
equals its key) is preserved by `add` (which keys the record by its
validated id), by `delete`, and by `search`; `update` preserves it exactly
when the updates either omit `id` or set it to the record's own key — an
update carrying a different `id` breaks it. -/
theorem C10_id_invariant (st : SysState) (K : Kind) (hinv : IdInv st.doc) :
    (∀ r, IdInv ((add none K r st).1).doc) ∧
    (∀ id, IdInv ((delete none K id st).1).doc) ∧
    (∀ crit, IdInv ((search none K crit st).1).doc) ∧
    (∀ id u, (getF u "id" = none ∨ getF u "id" = some (JValue.str id)) →
        IdInv ((update none K id u st).1).doc) := by
  refine ⟨?_, ?_, ?_, ?_⟩
  · intro r
    cases hv : validateData r K with
    | error m => simpa [add, hv] using hinv
    | ok b =>
        have hv' : validateData r K = .ok true := validateData_ok_true r K b hv
        cases hl : lookupK (st.doc.coll K) (idKey r) with
        | some ex => simpa [add, hv, hl, createBackup, readFile] using hinv
        | none =>
            have hid := validateData_ok_id r K hv'
            rw [add_success_state K r st b hv hl]
            show IdInv (st.doc.setColl K (setK (st.doc.coll K) (idKey r) r))
            intro K' p hp
            by_cases hK : K' = K
            · subst hK
              rw [coll_setColl_same] at hp
              rcases mem_setK _ _ _ _ hp with h1 | h1
              · subst h1
                simpa using hid
              · exact hinv K' p h1
            · rw [coll_setColl_other _ _ _ _ hK] at hp
              exact hinv K' p hp
  · intro id
    cases hl : lookupK (st.doc.coll K) id with
    | none => simpa [delete, readFile, hl] using hinv
    | some ex =>
        by_cases hdep : K = Kind.department ∧ refsDept st.doc.professors id
        · obtain ⟨hty, href⟩ := hdep
          subst hty
          simpa [delete, readFile, hl, href] using hinv
        · have hres : ((delete none K id st).1).doc
              = st.doc.setColl K (removeK (st.doc.coll K) id) := by
            simp [delete, readFile, hl, hdep, createBackup, writeFile]
          rw [hres]
          intro K' p hp
          by_cases hK : K' = K
          · subst hK
            rw [coll_setColl_same] at hp
            exact hinv K' p (mem_removeK _ _ _ hp)
          · rw [coll_setColl_other _ _ _ _ hK] at hp
            exact hinv K' p hp
  · intro crit
    rw [search_state]
    exact hinv
  · intro id u hu
    cases hl : lookupK (st.doc.coll K) id with
    | none => simpa [update, readFile, hl] using hinv
    | some ex =>
        cases hv : validateData (mergeR ex u) K with
        | error m => simpa [update, readFile, hl, hv] using hinv
        | ok b =>
            have hres : ((update none K id u st).1).doc
                = st.doc.setColl K (setK (st.doc.coll K) id (mergeR ex u)) := by
              simp [update, readFile, hl, hv, createBackup, writeFile]
            rw [hres]
            intro K' p hp
            by_cases hK : K' = K
            · subst hK
              rw [coll_setColl_same] at hp
              rcases mem_setK _ _ _ _ hp with h1 | h1
              · subst h1
                have hexid : getF ex "id" = some (JValue.str id) := by
                  simpa using hinv K' (id, ex) (lookupK_mem _ _ _ hl)
                show getF (mergeR ex u) "id" = some (JValue.str id)
                rw [getF_mergeR]
                rcases hu with hu | hu
                · have hno : hasF u "id" = false := by rw [hasF_eq_isSome, hu]; rfl
                  simpa [hno] using hexid
                · have hyes : hasF u "id" = true := by rw [hasF_eq_isSome, hu]; rfl
                  simpa [hyes] using hu
              · exact hinv K' p h1
            · rw [coll_setColl_other _ _ _ _ hK] at hp
              exact hinv K' p hp

/-- C10 witness: from the store holding `d1`, both adding the fresh valid
department `d2` and updating `d1`'s budget keep the key/id invariant. -/
theorem C10_witness :
    IdInv ((add none .department recD2 stD1).1).doc ∧
    IdInv ((update none .department "d1" updBudget stD1).1).doc :=
  ⟨(C10_id_invariant stD1 .department (by decide)).1 recD2,
   (C10_id_invariant stD1 .department (by decide)).2.2.2 "d1" updBudget
     (Or.inl (by decide))⟩

end UniversitySystem
